import Mathlib

/-!
Verification development for `UNET_script.py` (UNET-Segmentation repository).

The script is a thin evaluation driver: it builds two deterministic MONAI
transform chains (`image_transforms`, `seg_transforms`), runs an ignite
evaluation loop over two volume/segmentation pairs with a pretrained 3-D
UNet, accumulates a `DiceMetric` plus recall/precision, stores each
(prediction, ground-truth) pair, and renders four slice-by-slice GIF
animations.

Shallow embedding conventions used below:
- A volumetric tensor is a `Vol α`: spatial dimensions per `Axis` plus a
  total voxel-value function.  The leading channel dimension added by
  `LoadImage(ensure_channel_first=True)` is always of size 1 in this script
  and is left implicit; transforms act on the three spatial axes.
- `LoadImage` itself is file I/O and is represented by the `Vol` that it
  yields together with the `Orient` descriptor that `Orientation("RAS")`
  derives from the file's affine.
- Real-valued model outputs (logits, sigmoid, softmax) are embedded over `ℝ`;
  voxel intensities and metric arithmetic over `ℚ` (exact rational arithmetic
  standing for the script's floating-point arithmetic).
- MONAI's `DiceMetric(include_background=True, reduction="mean")` yields NaN
  for an empty ground truth (its default `ignore_empty=True`) and its
  `aggregate` averages over the non-NaN entries; NaN is embedded as `none`.
-/

namespace UNETScript

/-- Spatial axes of a 3-D volume (after the channel axis). -/
inductive Axis : Type
  | x
  | y
  | z
  deriving DecidableEq, Fintype

/-- A voxel coordinate: one index per spatial axis. -/
abbrev Coord : Type := Axis → Nat

/-- Build a coordinate from its three components. -/
def coordOf (i j k : Nat) : Coord :=
  fun a => match a with
  | Axis.x => i
  | Axis.y => j
  | Axis.z => k

/-- A volumetric tensor: a size per spatial axis and a total voxel-value
function (reads outside the extent are irrelevant to every statement below,
which only ever constrains in-bounds voxels). -/
structure Vol (α : Type) where
  dim : Axis → Nat
  data : Coord → α

/-- Pointwise value map over a volume (spatial layout unchanged). -/
def Vol.map {α β : Type} (f : α → β) (v : Vol α) : Vol β :=
  { dim := v.dim, data := fun c => f (v.data c) }

/-- Result of MONAI `Orientation(axcodes="RAS")` on a file's affine: a
relabelling of the spatial axes (output axis `a` reads source axis `src a`,
`inv` its inverse) together with a per-output-axis direction flip. -/
structure Orient where
  src : Axis → Axis
  inv : Axis → Axis
  flip : Axis → Bool

/-- The identity orientation (volume already in RAS order). -/
def idOrient : Orient :=
  { src := fun a => a, inv := fun a => a, flip := fun _ => false }

/-- Apply an orientation descriptor: output axis `a` has the extent of source
axis `src a`; a flipped axis reads its source coordinate reversed. -/
def applyOrient {α : Type} (o : Orient) (v : Vol α) : Vol α :=
  { dim := fun a => v.dim (o.src a)
  , data := fun c =>
      v.data (fun b =>
        if o.flip (o.inv b) then v.dim b - 1 - c (o.inv b) else c (o.inv b)) }

/-- MONAI `fall_back_tuple`: a non-positive requested ROI component falls back
to the image extent (the script always passes positive components). -/
def fallBack (r d : Nat) : Nat :=
  if r = 0 then d else r

/-- Start offset of MONAI's center crop along one axis: torch computes
`max(center - roi_size // 2, 0)` with `center = dim // 2`; truncated `Nat`
subtraction realises the clamp at 0. -/
def cropStart (d r : Nat) : Nat :=
  d / 2 - r / 2

/-- Crop a volume at explicit per-axis start offsets; slicing clips the end
of the interval at the image extent exactly as tensor slicing does. -/
def cropAt {α : Type} (start size : Axis → Nat) (v : Vol α) : Vol α :=
  { dim := fun a => min (start a + size a) (v.dim a) - start a
  , data := fun c => v.data (fun a => start a + c a) }

/-- MONAI `CenterSpatialCrop` on per-axis sizes `size`. -/
def centerCropAt {α : Type} (size : Axis → Nat) (v : Vol α) : Vol α :=
  cropAt (fun a => cropStart (v.dim a) (size a)) size v

/-- An abstract stream of pseudo-random draws (numpy `RandomState`):
draw `i` of the stream is `g i`. -/
def Rng : Type := Nat → Nat

/-- A fixed random stream, used to instantiate statements. -/
def rng0 : Rng := fun _ => 0

/-- A second, different random stream. -/
def rng1 : Rng := fun n => n + 1

/-- Index of an axis inside the random stream. -/
def axIdx (a : Axis) : Nat :=
  match a with
  | Axis.x => 0
  | Axis.y => 1
  | Axis.z => 2

/-- A bounded pseudo-random draw in `[lo, hi]` from position `i` of the
stream. -/
def randInt (g : Rng) (i lo hi : Nat) : Nat :=
  lo + g i % (hi + 1 - lo)

/-- MONAI `RandSpatialCrop(roi, random_center, random_size)` (defaults of
MONAI ≥ 1.3: `random_size=False`): with `random_size` the actual size is
drawn between the requested ROI and the image extent; with `random_center`
the patch start is drawn uniformly; otherwise it is a `CenterSpatialCrop`.
The script instantiates it with `random_center=False` (and the default
`random_size=False`), i.e. the deterministic center crop branch. -/
def randSpatialCrop {α : Type} (randomCenter randomSize : Bool) (g : Rng)
    (roi : Axis → Nat) (v : Vol α) : Vol α :=
  let size0 : Axis → Nat := fun a => fallBack (roi a) (v.dim a)
  let size : Axis → Nat := fun a =>
    if randomSize then randInt g (axIdx a) (size0 a) (max (size0 a) (v.dim a))
    else size0 a
  if randomCenter then
    cropAt (fun a => randInt g (3 + axIdx a) 0 (v.dim a - size a)) size v
  else
    centerCropAt size v

/-- The fixed ROI `(512, 512, 160)` passed to both `RandSpatialCrop` calls. -/
def roiFixed : Axis → Nat :=
  fun a => match a with
  | Axis.x => 512
  | Axis.y => 512
  | Axis.z => 160

/-- Source constant `amin = -22.18`. -/
def amin : ℚ := -22.18

/-- Source constant `amax = 450.0`. -/
def amax : ℚ := 450.0

/-- MONAI `ScaleIntensityRange(a_min, a_max, b_min, b_max, clip)` on one voxel
value: shift/scale the `[a_min, a_max]` window onto `[b_min, b_max]`, then
clip into `[b_min, b_max]` when requested. -/
def scaleIntensityVal (aMin aMax bMin bMax : ℚ) (clip : Bool) (x : ℚ) : ℚ :=
  let y := (x - aMin) / (aMax - aMin) * (bMax - bMin) + bMin
  if clip then min (max y bMin) bMax else y

/-- The `image_transforms = Compose([...])` chain of the script: load (the
`Vol`/`Orient` inputs), `ScaleIntensityRange(amin, amax, 0, 1, clip=True)`,
`Orientation("RAS")`, `RandSpatialCrop((512,512,160), random_center=False)`. -/
def image_transforms (o : Orient) (g : Rng) (v : Vol ℚ) : Vol ℚ :=
  randSpatialCrop false false g roiFixed
    (applyOrient o (Vol.map (scaleIntensityVal amin amax 0 1 true) v))

/-- The `seg_transforms = Compose([...])` chain of the script: load,
`Orientation("RAS")`, `RandSpatialCrop((512,512,160), random_center=False)`
— no intensity rescaling. -/
def seg_transforms (o : Orient) (g : Rng) (v : Vol ℚ) : Vol ℚ :=
  randSpatialCrop false false g roiFixed (applyOrient o v)

/-- Source-volume coordinate read by output coordinate `c` of either
transform chain, for a source volume of extents `d` oriented by `o`:
first undo the crop offset, then undo the axis relabelling/flip. -/
def chainSrcIndex (o : Orient) (d : Axis → Nat) (c : Coord) : Coord :=
  fun b =>
    let cc : Coord := fun a =>
      cropStart (d (o.src a)) (fallBack (roiFixed a) (d (o.src a))) + c a
    if o.flip (o.inv b) then d b - 1 - cc (o.inv b) else cc (o.inv b)

/-- Raw model output for one batch: a channel count (`logits.shape[1]`),
spatial extents, and a real value per channel and voxel. -/
structure Logits where
  channels : Nat
  sdim : Axis → Nat
  val : Nat → Coord → ℝ

/-- The evaluated network.  `fwd` is the forward pass in non-training mode
with gradient tracking disabled (a pure function of the input batch);
`fwd_channels` is the MONAI `UNet` guarantee that the output channel count is
the constructor's `out_channels` argument.  The script constructs the model
with `out_channels=1`. -/
structure UNetModel where
  outChannels : Nat
  fwd : Vol ℚ → Logits
  fwd_channels : ∀ v, (fwd v).channels = outChannels

/-- Logistic sigmoid, `torch.sigmoid`. -/
noncomputable def sigmoid (t : ℝ) : ℝ :=
  1 / (1 + Real.exp (-t))

/-- Softmax over `C` channels, `torch.softmax(·, dim=1)` at one voxel. -/
noncomputable def softmaxVal (C : Nat) (f : Nat → ℝ) (c : Nat) : ℝ :=
  Real.exp (f c) / ∑ i ∈ Finset.range C, Real.exp (f i)

/-- `torch.argmax` over channels `0..C-1`: index of the first maximal
value. -/
noncomputable def argmaxChannel (C : Nat) (f : Nat → ℝ) : Nat :=
  (List.range C).foldl (fun best c => if f best < f c then c else best) 0

/-- The script's `evaluation_step(engine, batch)`: two forward passes on the
same batch (the first, `outputs`, is discarded), then a prediction derived
from `logits` by channel count — sigmoid thresholded strictly at 0.5 for a
single channel, per-voxel argmax of the softmax otherwise — returned together
with the ground-truth masks.  The boolean tensor of the binary branch is
embedded directly as the 0/1 integer tensor that `prediction * 1` later
yields. -/
noncomputable def evaluation_step (m : UNetModel) (batch : Vol ℚ × Vol ℚ) :
    Vol Nat × Vol ℚ :=
  let images := batch.1
  let masks := batch.2
  let outputs := m.fwd images
  let logits := m.fwd images
  let predictions : Vol Nat :=
    if logits.channels = 1 then
      { dim := logits.sdim
      , data := fun c => if (0.5 : ℝ) < sigmoid (logits.val 0 c) then 1 else 0 }
    else
      { dim := logits.sdim
      , data := fun c =>
          argmaxChannel logits.channels
            (fun ch => softmaxVal logits.channels (fun ch2 => logits.val ch2 c) ch) }
  (predictions, masks)

/-- Variant of `evaluation_step` that runs the forward pass exactly once. -/
noncomputable def evaluation_step_single (m : UNetModel)
    (batch : Vol ℚ × Vol ℚ) : Vol Nat × Vol ℚ :=
  let images := batch.1
  let masks := batch.2
  let logits := m.fwd images
  let predictions : Vol Nat :=
    if logits.channels = 1 then
      { dim := logits.sdim
      , data := fun c => if (0.5 : ℝ) < sigmoid (logits.val 0 c) then 1 else 0 }
    else
      { dim := logits.sdim
      , data := fun c =>
          argmaxChannel logits.channels
            (fun ch => softmaxVal logits.channels (fun ch2 => logits.val ch2 c) ch) }
  (predictions, masks)

/-- Sum of a rational-valued voxel function over the in-bounds voxels of a
volume of extents `d` (`torch.sum`). -/
def sumVox (d : Axis → Nat) (f : Coord → ℚ) : ℚ :=
  ∑ i ∈ Finset.range (d Axis.x), ∑ j ∈ Finset.range (d Axis.y),
    ∑ k ∈ Finset.range (d Axis.z), f (coordOf i j k)

/-- One `DiceMetric(include_background=True, reduction="mean")` update on a
(prediction, ground-truth) pair: MONAI computes `2·Σ(ŷ·y) / (Σy + Σŷ)` and,
with its default `ignore_empty=True`, yields NaN (embedded as `none`) when
the ground truth sums to zero. -/
def diceItem (p : Vol Nat) (g : Vol ℚ) : Option ℚ :=
  let yo := sumVox g.dim g.data
  let ypo := sumVox g.dim (fun c => ((p.data c : ℚ)))
  let inter := sumVox g.dim (fun c => (p.data c : ℚ) * g.data c)
  if 0 < yo then some (2 * inter / (yo + ypo)) else none

/-- `DiceMetric.aggregate()` with `reduction="mean"`: the mean over the
buffered per-item scores that are not NaN; NaN (`none`) when every buffered
score is NaN or the buffer is empty. -/
def aggregateMean (buf : List (Option ℚ)) : Option ℚ :=
  let vs := buf.filterMap id
  if vs.length = 0 then none else some (vs.sum / (vs.length : ℚ))

/-- Accumulated evaluation-loop state: the `store_predictions` list, the
`DiceMetric` buffer, and the running true-positive / false-negative /
false-positive voxel counts feeding the ignite `Recall` / `Precision`
accumulators. -/
structure EvalState where
  stored : List (Vol Nat × Vol ℚ)
  diceBuf : List (Option ℚ)
  tp : Nat
  fn : Nat
  fp : Nat

/-- Loop state before the first batch. -/
def initState : EvalState :=
  { stored := [], diceBuf := [], tp := 0, fn := 0, fp := 0 }

/-- Number of in-bounds voxels of extents `d` satisfying a predicate. -/
def countVox (d : Axis → Nat) (pr : Coord → Bool) : Nat :=
  ∑ i ∈ Finset.range (d Axis.x), ∑ j ∈ Finset.range (d Axis.y),
    ∑ k ∈ Finset.range (d Axis.z), if pr (coordOf i j k) then 1 else 0

/-- One iteration of `evaluator.run`: run `evaluation_step` on the batch,
then fire the `ITERATION_COMPLETED` handlers in attachment order —
`update_dice_metric` (buffering one `DiceMetric` score) and
`save_segmentation_masks` (appending the single `(prediction*1, ground_truth)`
record of the size-1 batch) — and update the attached `Recall`/`Precision`
accumulators. -/
noncomputable def processBatch (m : UNetModel) (st : EvalState)
    (b : Vol ℚ × Vol ℚ) : EvalState :=
  let out := evaluation_step m b
  let p := out.1
  let g := out.2
  { stored := st.stored ++ [out]
  , diceBuf := st.diceBuf ++ [diceItem p g]
  , tp := st.tp + countVox g.dim (fun c => decide (p.data c = 1) && decide (g.data c = 1))
  , fn := st.fn + countVox g.dim (fun c => decide (p.data c ≠ 1) && decide (g.data c = 1))
  , fp := st.fp + countVox g.dim (fun c => decide (p.data c = 1) && decide (g.data c ≠ 1)) }

/-- `evaluator.run(test_loader)`: the `DataLoader` over the `ArrayDataset`
yields the transformed (image, segmentation) batches in input order with
`batch_size=1`; the engine folds every batch through the step function and
its completion handlers. -/
noncomputable def runLoop (m : UNetModel) (batches : List (Vol ℚ × Vol ℚ)) :
    EvalState :=
  batches.foldl (processBatch m) initState

/-- Modelled from the spec: the ignite `Recall(average=True)` accumulator
finalised after the run — the running accumulators reduce to the recall
`TP / (TP + FN)` of the accumulated counts (the ignite internals are library
code outside this repository). -/
def recallOf (st : EvalState) : ℚ :=
  (st.tp : ℚ) / ((st.tp : ℚ) + (st.fn : ℚ))

/-- Modelled from the spec: the ignite `Precision(average=False)` accumulator
finalised after the run, `TP / (TP + FP)` of the accumulated counts. -/
def precisionOf (st : EvalState) : ℚ :=
  (st.tp : ℚ) / ((st.tp : ℚ) + (st.fp : ℚ))

/-- The `log_mean_dice` handler fired at `Events.COMPLETED`: it aggregates
the metric into a local `mean_dice_score` (shadowing the outer variable) and
prints it; the `reset()` call is commented out in the source, so the metric
buffer is returned unchanged. -/
def log_mean_dice (buf : List (Option ℚ)) : Option ℚ × List (Option ℚ) :=
  (aggregateMean buf, buf)

/-- The whole `generate_output()` entry function, abstracted over the loaded
model and the transformed input batches (model/file loading is I/O): run the
evaluation loop, fire the completion handler, then re-aggregate the
never-reset metric (line `mean_dice_score = mean_dice_metric.aggregate().item()`)
and return the `(mean_dice_score, recall, precision)` triple. -/
noncomputable def generate_output (m : UNetModel)
    (batches : List (Vol ℚ × Vol ℚ)) : Option ℚ × ℚ × ℚ :=
  let final := runLoop m batches
  let handler := log_mean_dice final.diceBuf
  let mean_dice_score := aggregateMean handler.2
  (mean_dice_score, recallOf final, precisionOf final)

/-- The intermediate value printed by the `log_mean_dice` handler. -/
def printedMeanDice (final : EvalState) : Option ℚ :=
  (log_mean_dice final.diceBuf).1

/-- The numpy/torch `.T` of a squeezed 3-D tensor: reverse the axis order
(`new[i, j, k] = old[k, j, i]`), so the displayed leading axis is the former
`z` axis. -/
def axisRev : Axis → Axis :=
  fun a => match a with
  | Axis.x => Axis.z
  | Axis.y => Axis.y
  | Axis.z => Axis.x

/-- Transpose of a squeezed stored tensor for display. -/
def transposeT {α : Type} (v : Vol α) : Vol α :=
  { dim := fun a => v.dim (axisRev a)
  , data := fun c => v.data (fun a => c (axisRev a)) }

/-- The `FuncAnimation` built by `gif_generator`: a frame count, the 2-D
slice shown in each frame, each frame's title, and the fixed inter-frame
interval in milliseconds. -/
structure AnimationSpec where
  nframes : Nat
  frame : Nat → Nat → Nat → ℚ
  title : Nat → String
  intervalMs : Nat

/-- The script's `gif_generator(image)`: one frame per slice along the
leading axis (`frames=image.shape[0]`), frame `f` shows `image[f]` and is
titled with its frame index, at `interval=300` milliseconds. -/
def gif_generator (image : Vol ℚ) : AnimationSpec :=
  { nframes := image.dim Axis.x
  , frame := fun f j k => image.data (coordOf f j k)
  , title := fun f => "Slice " ++ toString f
  , intervalMs := 300 }

/-- Output path of the `idx`-th GIF: the script writes
`os.path.join(ROOT_PATH, f"saved_gifs/mask{idx}.gif")` into the fixed
`saved_gifs` directory it created with `os.makedirs(..., exist_ok=True)`. -/
def gifFileName (idx : Nat) : String :=
  "saved_gifs/mask" ++ toString idx ++ ".gif"

/-- The GIF-generation loop over the four displayed tensors
`[mask, ground_truth, mask2, ground_truth2]` taken from the first two stored
records: one `(file name, animation)` job per tensor, the file name suffixed
with the enumeration index. -/
def gifJobs (r0 r1 : Vol Nat × Vol ℚ) : List (String × AnimationSpec) :=
  let mask := transposeT (Vol.map (fun n : Nat => (n : ℚ)) r0.1)
  let ground_truth := transposeT r0.2
  let mask2 := transposeT (Vol.map (fun n : Nat => (n : ℚ)) r1.1)
  let ground_truth2 := transposeT r1.2
  ([mask, ground_truth, mask2, ground_truth2].enum).map
    (fun p => (gifFileName p.1, gif_generator p.2))

/-! Concrete instances used to instantiate the theorems below. -/

/-- A small synthetic volume with a unique marker voxel at `(1, 2, 3)`. -/
def volMarker : Vol ℚ :=
  { dim := fun _ => 4
  , data := fun c => if c Axis.x = 1 ∧ c Axis.y = 2 ∧ c Axis.z = 3 then 1 else 0 }

/-- A paired synthetic mask with the marker voxel at the same location. -/
def mskMarker : Vol ℚ :=
  { dim := fun _ => 4
  , data := fun c => if c Axis.x = 1 ∧ c Axis.y = 2 ∧ c Axis.z = 3 then 1 else 0 }

/-- A `512 × 512 × 200` volume whose voxel value records its own
`z`-coordinate. -/
def volZ : Vol ℚ :=
  { dim := fun a => match a with
      | Axis.x => 512
      | Axis.y => 512
      | Axis.z => 200
  , data := fun c => (c Axis.z : ℚ) }

/-- A volume of exactly the ROI extents `512 × 512 × 160`. -/
def volRoi : Vol ℚ :=
  { dim := roiFixed, data := fun _ => 0 }

/-- A `512 × 512 × 100` volume, undersized along `z`. -/
def volSmall : Vol ℚ :=
  { dim := fun a => match a with
      | Axis.x => 512
      | Axis.y => 512
      | Axis.z => 100
  , data := fun _ => 0 }

/-- A trivial network with a single output channel and all-zero logits. -/
noncomputable def constModel : UNetModel :=
  { outChannels := 1
  , fwd := fun v => { channels := 1, sdim := v.dim, val := fun _ _ => 0 }
  , fwd_channels := fun _ => rfl }

/-- A concrete batch built from the marker volume and mask. -/
def batchMarker : Vol ℚ × Vol ℚ := (volMarker, mskMarker)

/-- An all-ones `1 × 1 × 1` prediction. -/
def predOne : Vol Nat :=
  { dim := fun _ => 1, data := fun _ => 1 }

/-- An all-ones `1 × 1 × 1` ground truth. -/
def gtOne : Vol ℚ :=
  { dim := fun _ => 1, data := fun _ => 1 }

/-- An all-zero `1 × 1 × 1` prediction. -/
def predZero : Vol Nat :=
  { dim := fun _ => 1, data := fun _ => 0 }

/-- An all-zero `1 × 1 × 1` ground truth. -/
def gtZero : Vol ℚ :=
  { dim := fun _ => 1, data := fun _ => 0 }

/-! Helper lemmas shared by several results. -/

/-- The fixed ROI components are positive, so `fall_back_tuple` keeps them. -/
theorem fallBack_roiFixed (a : Axis) (d : Nat) :
    fallBack (roiFixed a) d = roiFixed a := by
  cases a <;> rfl

/-- The records stored by the evaluation loop are exactly the step outputs of
the batches, in order. -/
theorem runLoop_stored_eq (m : UNetModel) (batches : List (Vol ℚ × Vol ℚ)) :
    (runLoop m batches).stored = batches.map (evaluation_step m) := by
  suffices h : ∀ st, (batches.foldl (processBatch m) st).stored
      = st.stored ++ batches.map (evaluation_step m) by
    simpa [runLoop, initState] using h initState
  induction batches with
  | nil => intro st; simp
  | cons b bs ih =>
      intro st
      simp only [List.foldl_cons, List.map_cons, ih, processBatch]
      simp

/-- Voxel sums agree on functions that agree on the in-bounds voxels. -/
theorem sumVox_congr (d : Axis → Nat) (f f' : Coord → ℚ)
    (h : ∀ i ∈ Finset.range (d Axis.x), ∀ j ∈ Finset.range (d Axis.y),
      ∀ k ∈ Finset.range (d Axis.z), f (coordOf i j k) = f' (coordOf i j k)) :
    sumVox d f = sumVox d f' := by
  unfold sumVox
  exact Finset.sum_congr rfl fun i hi => Finset.sum_congr rfl fun j hj =>
    Finset.sum_congr rfl fun k hk => h i hi j hj k hk

/-- Closed form of the extents of the mask chain output. -/
theorem seg_transforms_dim (o : Orient) (g : Rng) (v : Vol ℚ) :
    (seg_transforms o g v).dim = fun a =>
      min (cropStart (v.dim (o.src a)) (fallBack (roiFixed a) (v.dim (o.src a)))
            + fallBack (roiFixed a) (v.dim (o.src a))) (v.dim (o.src a))
        - cropStart (v.dim (o.src a)) (fallBack (roiFixed a) (v.dim (o.src a))) :=
  rfl

/-- Closed form of the extents of the image chain output (the pointwise
intensity rescale leaves the extents unchanged). -/
theorem image_transforms_dim (o : Orient) (g : Rng) (v : Vol ℚ) :
    (image_transforms o g v).dim = fun a =>
      min (cropStart (v.dim (o.src a)) (fallBack (roiFixed a) (v.dim (o.src a)))
            + fallBack (roiFixed a) (v.dim (o.src a))) (v.dim (o.src a))
        - cropStart (v.dim (o.src a)) (fallBack (roiFixed a) (v.dim (o.src a))) :=
  rfl

/-- Closed form of the voxel values of the mask chain output. -/
theorem seg_transforms_data (o : Orient) (g : Rng) (v : Vol ℚ) (c : Coord) :
    (seg_transforms o g v).data c = (applyOrient o v).data
      (fun a => cropStart (v.dim (o.src a)) (fallBack (roiFixed a) (v.dim (o.src a)))
        + c a) :=
  rfl

/-- C1: the image and mask transform chains apply the identical reorientation
and the identical deterministic crop — same crop extents and same crop offset
— so every output voxel of the transformed image and of the transformed mask
is read from the same source coordinate `chainSrcIndex o dim c` (the image
voxel additionally passing through the pointwise intensity rescale, which
moves no voxel); in particular a marker voxel at a common source location
surfaces at the same index in both transformed tensors. -/
theorem image_seg_transforms_correspondence (o : Orient) (g g' : Rng)
    (img msk : Vol ℚ) (c : Coord) (hdim : img.dim = msk.dim) :
    (image_transforms o g img).dim = (seg_transforms o g' msk).dim
    ∧ (image_transforms o g img).data c
        = scaleIntensityVal amin amax 0 1 true
            (img.data (chainSrcIndex o img.dim c))
    ∧ (seg_transforms o g' msk).data c = msk.data (chainSrcIndex o msk.dim c)
    ∧ chainSrcIndex o img.dim c = chainSrcIndex o msk.dim c := by
  refine ⟨?_, rfl, rfl, by rw [hdim]⟩
  rw [image_transforms_dim, seg_transforms_dim, hdim]

/-- Witness for C1 at the synthetic marker volume/mask pair. -/
theorem image_seg_transforms_correspondence_witness :
    volMarker.dim = mskMarker.dim
    ∧ ((image_transforms idOrient rng0 volMarker).dim
          = (seg_transforms idOrient rng1 mskMarker).dim
      ∧ (image_transforms idOrient rng0 volMarker).data (coordOf 1 2 3)
          = scaleIntensityVal amin amax 0 1 true
              (volMarker.data (chainSrcIndex idOrient volMarker.dim (coordOf 1 2 3)))
      ∧ (seg_transforms idOrient rng1 mskMarker).data (coordOf 1 2 3)
          = mskMarker.data (chainSrcIndex idOrient mskMarker.dim (coordOf 1 2 3))
      ∧ chainSrcIndex idOrient volMarker.dim (coordOf 1 2 3)
          = chainSrcIndex idOrient mskMarker.dim (coordOf 1 2 3)) :=
  ⟨rfl, image_seg_transforms_correspondence idOrient rng0 rng1
    volMarker mskMarker (coordOf 1 2 3) rfl⟩

/-- C2 (amended): both transform chains are deterministic — the output does
not depend on the random stream, since `random_center=False` (with MONAI's
default `random_size=False`) selects the center-crop branch — and whenever
the oriented input is at least `512 × 512 × 160`, the crop produces exactly
those extents; the crop is anchored at the per-axis centered offset
`⌊d/2⌋ − ⌊r/2⌋` (clamped at 0), not at a corner. -/
theorem transform_chains_deterministic_center_anchored (o : Orient)
    (g g' : Rng) (v : Vol ℚ) (c : Coord)
    (h : ∀ a, roiFixed a ≤ v.dim (o.src a)) :
    image_transforms o g v = image_transforms o g' v
    ∧ seg_transforms o g v = seg_transforms o g' v
    ∧ (∀ a, (image_transforms o g v).dim a = roiFixed a)
    ∧ (∀ a, (seg_transforms o g v).dim a = roiFixed a)
    ∧ (seg_transforms o g v).data c
        = (applyOrient o v).data
            (fun a => cropStart (v.dim (o.src a)) (roiFixed a) + c a) := by
  refine ⟨rfl, rfl, ?_, ?_, ?_⟩
  · intro a
    have ha := h a
    rw [image_transforms_dim]
    simp only [fallBack_roiFixed]
    unfold cropStart
    omega
  · intro a
    have ha := h a
    rw [seg_transforms_dim]
    simp only [fallBack_roiFixed]
    unfold cropStart
    omega
  · rw [seg_transforms_data]
    exact congrArg (applyOrient o v).data
      (funext fun a => by rw [fallBack_roiFixed])

/-- Witness for the amended C2 at a volume of exactly the ROI extents. -/
theorem transform_chains_deterministic_center_anchored_witness :
    (∀ a, roiFixed a ≤ volRoi.dim (idOrient.src a))
    ∧ (image_transforms idOrient rng0 volRoi = image_transforms idOrient rng1 volRoi
      ∧ seg_transforms idOrient rng0 volRoi = seg_transforms idOrient rng1 volRoi
      ∧ (∀ a, (image_transforms idOrient rng0 volRoi).dim a = roiFixed a)
      ∧ (∀ a, (seg_transforms idOrient rng0 volRoi).dim a = roiFixed a)
      ∧ (seg_transforms idOrient rng0 volRoi).data (coordOf 0 0 0)
          = (applyOrient idOrient volRoi).data
              (fun a => cropStart (volRoi.dim (idOrient.src a)) (roiFixed a)
                + coordOf 0 0 0 a)) :=
  ⟨by decide, transform_chains_deterministic_center_anchored idOrient rng0 rng1
    volRoi (coordOf 0 0 0) (by decide)⟩

/-- Counterexample to C2 as stated: on a `512 × 512 × 200` input the crop is
anchored at `z`-offset 20 (the centered offset), so the transformed volume at
the origin holds the source voxel from `z = 20` — not the voxel of either
corner-anchored crop (`z = 0` or `z = 40`); and on a `512 × 512 × 100` input
the output `z`-extent is 100, not the fixed 160. -/
theorem transform_crop_not_corner_anchored :
    (seg_transforms idOrient rng0 volZ).data (coordOf 0 0 0) = (20 : ℚ)
    ∧ volZ.data (coordOf 0 0 0) = (0 : ℚ)
    ∧ volZ.data (coordOf 0 0 40) = (40 : ℚ)
    ∧ (seg_transforms idOrient rng0 volZ).data (coordOf 0 0 0)
        ≠ volZ.data (coordOf 0 0 0)
    ∧ (seg_transforms idOrient rng0 volZ).data (coordOf 0 0 0)
        ≠ volZ.data (coordOf 0 0 40)
    ∧ (seg_transforms idOrient rng0 volSmall).dim Axis.z = 100
    ∧ (seg_transforms idOrient rng0 volSmall).dim Axis.z ≠ 160 := by
  refine ⟨?_, ?_, ?_, ?_, ?_, ?_, ?_⟩ <;> decide

/-- C3: the evaluation step derives its prediction from the raw logits by
output-channel count — with exactly one channel every voxel is predicted 1
precisely when its sigmoid value strictly exceeds 0.5 (and 0 otherwise);
with any other channel count the prediction is the per-voxel first arg-max
channel index of the softmax along the channel dimension — and the
ground-truth masks are passed through unchanged. -/
theorem evaluation_step_prediction_by_channel (m : UNetModel)
    (b : Vol ℚ × Vol ℚ) (c : Coord) :
    ((evaluation_step m b).1.data c =
      if (m.fwd b.1).channels = 1 then
        (if (0.5 : ℝ) < sigmoid ((m.fwd b.1).val 0 c) then 1 else 0)
      else
        argmaxChannel (m.fwd b.1).channels
          (fun ch => softmaxVal (m.fwd b.1).channels
            (fun ch2 => (m.fwd b.1).val ch2 c) ch))
    ∧ (evaluation_step m b).2 = b.2 := by
  constructor
  · by_cases h : (m.fwd b.1).channels = 1 <;> simp [evaluation_step, h]
  · rfl

/-- C4: the stored-predictions sequence holds exactly one
(prediction, ground-truth) record per input pair, in input order; in
particular a run over the two hardcoded pairs stores exactly their two step
outputs in order. -/
theorem stored_predictions_one_record_per_pair (m : UNetModel)
    (batches : List (Vol ℚ × Vol ℚ)) (k : Nat) (b1 b2 : Vol ℚ × Vol ℚ) :
    (runLoop m batches).stored.length = batches.length
    ∧ (runLoop m batches).stored[k]? = (batches[k]?).map (evaluation_step m)
    ∧ (runLoop m [b1, b2]).stored
        = [evaluation_step m b1, evaluation_step m b2] := by
  refine ⟨?_, ?_, ?_⟩
  · rw [runLoop_stored_eq]; simp
  · rw [runLoop_stored_eq]; simp
  · rw [runLoop_stored_eq]; rfl

/-- C5: `generate_output` returns the `(mean dice, recall, precision)`
triple, and — the `reset()` call being commented out and the completion
handler only assigning a shadowing local — the returned mean overlap score,
re-aggregated from the untouched metric buffer after the run, is exactly the
intermediate value the handler printed. -/
theorem generate_output_returns_printed_dice (m : UNetModel)
    (batches : List (Vol ℚ × Vol ℚ)) :
    (generate_output m batches).1 = printedMeanDice (runLoop m batches)
    ∧ generate_output m batches
        = (printedMeanDice (runLoop m batches), recallOf (runLoop m batches),
            precisionOf (runLoop m batches)) :=
  ⟨rfl, rfl⟩

/-- C10: the evaluation step discards its first forward pass, so it is
observationally equal to the variant that runs the forward pass exactly once
(the model runs in eval mode under `no_grad`, so a pass is a pure function of
the batch). -/
theorem evaluation_step_single_forward_equiv (m : UNetModel)
    (b : Vol ℚ × Vol ℚ) :
    evaluation_step m b = evaluation_step_single m b :=
  rfl

/-- C6: the intensity-rescaling transform maps every voxel value `x` to
`clamp((x - (-22.18)) / (450.0 - (-22.18)), 0, 1)` — values at or below
`-22.18` go to 0, values at or above `450.0` go to 1, values in between are
scaled linearly — and it is applied by the image chain only: the mask chain
returns source voxel values untouched. -/
theorem scale_intensity_clamp_images_only (x : ℚ) (o : Orient) (g : Rng)
    (v : Vol ℚ) (c : Coord) :
    scaleIntensityVal amin amax 0 1 true x
        = min (max ((x - amin) / (amax - amin)) 0) 1
    ∧ scaleIntensityVal amin amax 0 1 true x
        = (if x ≤ amin then 0
           else if amax ≤ x then 1
           else (x - amin) / (amax - amin))
    ∧ (image_transforms o g v).data c
        = scaleIntensityVal amin amax 0 1 true
            (v.data (chainSrcIndex o v.dim c))
    ∧ (seg_transforms o g v).data c = v.data (chainSrcIndex o v.dim c) := by
  have hpos : (0 : ℚ) < amax - amin := by norm_num [amin, amax]
  have hy : (x - amin) / (amax - amin) * (1 - 0) + 0
      = (x - amin) / (amax - amin) := by ring
  have hclip : scaleIntensityVal amin amax 0 1 true x
      = min (max ((x - amin) / (amax - amin)) 0) 1 := by
    simp only [scaleIntensityVal]
    rw [if_pos trivial, hy]
  refine ⟨hclip, ?_, rfl, rfl⟩
  by_cases hx1 : x ≤ amin
  · have h0 : (x - amin) / (amax - amin) ≤ 0 :=
      div_nonpos_iff.mpr (Or.inr ⟨by linarith, le_of_lt hpos⟩)
    rw [if_pos hx1, hclip, max_eq_right h0]
    norm_num
  · rw [if_neg hx1]
    by_cases hx2 : amax ≤ x
    · have h1 : 1 ≤ (x - amin) / (amax - amin) :=
        (one_le_div hpos).mpr (by linarith)
      rw [if_pos hx2, hclip, max_eq_left (le_trans zero_le_one h1),
        min_eq_right h1]
    · have hlo : 0 ≤ (x - amin) / (amax - amin) :=
        div_nonneg (by linarith) (le_of_lt hpos)
      have hhi : (x - amin) / (amax - amin) ≤ 1 :=
        (div_le_one hpos).mpr (by linarith)
      rw [if_neg hx2, hclip, max_eq_left hlo, min_eq_left hhi]

/-- C7 (amended): for a binarised, non-empty ground truth, the aggregated
mean Dice of an exactly matching prediction is 1, and of a prediction whose
positive voxels are disjoint from the ground truth's it is 0.  (Without the
non-emptiness proviso the metric yields NaN, see the counterexample.) -/
theorem dice_metric_perfect_one_disjoint_zero (p : Vol Nat) (g : Vol ℚ)
    (hbin : ∀ i ∈ Finset.range (g.dim Axis.x), ∀ j ∈ Finset.range (g.dim Axis.y),
      ∀ k ∈ Finset.range (g.dim Axis.z),
        g.data (coordOf i j k) = 0 ∨ g.data (coordOf i j k) = 1)
    (hpos : 0 < sumVox g.dim g.data) :
    ((∀ i ∈ Finset.range (g.dim Axis.x), ∀ j ∈ Finset.range (g.dim Axis.y),
        ∀ k ∈ Finset.range (g.dim Axis.z),
          (p.data (coordOf i j k) : ℚ) = g.data (coordOf i j k)) →
      aggregateMean [diceItem p g] = some 1)
    ∧ ((∀ i ∈ Finset.range (g.dim Axis.x), ∀ j ∈ Finset.range (g.dim Axis.y),
        ∀ k ∈ Finset.range (g.dim Axis.z),
          (p.data (coordOf i j k) : ℚ) * g.data (coordOf i j k) = 0) →
      aggregateMean [diceItem p g] = some 0) := by
  have hS : sumVox g.dim g.data ≠ 0 := ne_of_gt hpos
  constructor
  · intro heq
    have hinter : sumVox g.dim (fun c => (p.data c : ℚ) * g.data c)
        = sumVox g.dim g.data := by
      apply sumVox_congr
      intro i hi j hj k hk
      rw [heq i hi j hj k hk]
      rcases hbin i hi j hj k hk with h0 | h1
      · rw [h0]; ring
      · rw [h1]; ring
    have hypo : sumVox g.dim (fun c => ((p.data c : ℚ)))
        = sumVox g.dim g.data := sumVox_congr _ _ _ heq
    have hdi : diceItem p g = some 1 := by
      simp only [diceItem, hinter, hypo]
      rw [if_pos hpos, ← two_mul, div_self (mul_ne_zero two_ne_zero hS)]
    rw [hdi]
    norm_num [aggregateMean, List.filterMap_cons, List.filterMap_nil]
  · intro hdis
    have hinter : sumVox g.dim (fun c => (p.data c : ℚ) * g.data c)
        = sumVox g.dim (fun _ => 0) := sumVox_congr _ _ _ hdis
    have hzero : sumVox g.dim (fun _ => (0 : ℚ)) = 0 := by
      simp [sumVox]
    have hdi : diceItem p g = some 0 := by
      simp only [diceItem, hinter, hzero]
      rw [if_pos hpos]
      norm_num
    rw [hdi]
    norm_num [aggregateMean, List.filterMap_cons, List.filterMap_nil]

/-- Witness for the amended C7 at a one-voxel pair with positive ground
truth. -/
theorem dice_metric_perfect_one_disjoint_zero_witness :
    (∀ i ∈ Finset.range (gtOne.dim Axis.x), ∀ j ∈ Finset.range (gtOne.dim Axis.y),
      ∀ k ∈ Finset.range (gtOne.dim Axis.z),
        gtOne.data (coordOf i j k) = 0 ∨ gtOne.data (coordOf i j k) = 1)
    ∧ 0 < sumVox gtOne.dim gtOne.data
    ∧ (((∀ i ∈ Finset.range (gtOne.dim Axis.x), ∀ j ∈ Finset.range (gtOne.dim Axis.y),
        ∀ k ∈ Finset.range (gtOne.dim Axis.z),
          (predOne.data (coordOf i j k) : ℚ) = gtOne.data (coordOf i j k)) →
      aggregateMean [diceItem predOne gtOne] = some 1)
    ∧ ((∀ i ∈ Finset.range (gtOne.dim Axis.x), ∀ j ∈ Finset.range (gtOne.dim Axis.y),
        ∀ k ∈ Finset.range (gtOne.dim Axis.z),
          (predOne.data (coordOf i j k) : ℚ) * gtOne.data (coordOf i j k) = 0) →
      aggregateMean [diceItem predOne gtOne] = some 0)) :=
  ⟨by decide, by norm_num [sumVox, gtOne],
    dice_metric_perfect_one_disjoint_zero predOne gtOne (by decide)
      (by norm_num [sumVox, gtOne])⟩

/-- Counterexample to C7 as stated: with an empty ground truth the metric
buffers NaN (MONAI's `ignore_empty=True` default) and the aggregate is NaN —
for the all-zero pair the prediction equals the ground truth voxel for voxel
yet the aggregate is not 1.0, and for an all-ones prediction against the
all-zero ground truth the positive sets are disjoint yet the aggregate is
not 0.0. -/
theorem dice_metric_empty_ground_truth_nan :
    diceItem predZero gtZero = none
    ∧ aggregateMean [diceItem predZero gtZero] = none
    ∧ aggregateMean [diceItem predZero gtZero] ≠ some 1
    ∧ (predZero.data (coordOf 0 0 0) : ℚ) = gtZero.data (coordOf 0 0 0)
    ∧ diceItem predOne gtZero = none
    ∧ aggregateMean [diceItem predOne gtZero] ≠ some 0
    ∧ (predOne.data (coordOf 0 0 0) : ℚ) * gtZero.data (coordOf 0 0 0) = 0 := by
  have h0 : sumVox gtZero.dim gtZero.data = 0 := by norm_num [sumVox, gtZero]
  have hd1 : diceItem predZero gtZero = none := by simp [diceItem, h0]
  have hd2 : diceItem predOne gtZero = none := by simp [diceItem, h0]
  refine ⟨hd1, ?_, ?_, ?_, hd2, ?_, ?_⟩
  · rw [hd1]; rfl
  · rw [hd1]; simp [aggregateMean]
  · norm_num [predZero, gtZero, coordOf]
  · rw [hd2]; simp [aggregateMean]
  · norm_num [predOne, gtZero, coordOf]

/-- C8: the renderer is invoked exactly once per stored tensor — four jobs,
for the two predicted masks and the two ground truths — with index-suffixed
file names inside the fixed `saved_gifs` output directory; each animation has
exactly one frame per slice along its displayed tensor's leading axis (the
`z` extent of the stored record, after the transpose), every frame is titled
with its frame index, and frames advance at the fixed 300 ms interval. -/
theorem gif_jobs_once_per_stored_tensor (r0 r1 : Vol Nat × Vol ℚ) :
    (gifJobs r0 r1).length = 4
    ∧ (gifJobs r0 r1).map Prod.fst
        = ["saved_gifs/mask0.gif", "saved_gifs/mask1.gif",
            "saved_gifs/mask2.gif", "saved_gifs/mask3.gif"]
    ∧ (gifJobs r0 r1).map (fun jb => jb.2.nframes)
        = [r0.1.dim Axis.z, r0.2.dim Axis.z, r1.1.dim Axis.z, r1.2.dim Axis.z]
    ∧ (∀ jb ∈ gifJobs r0 r1, jb.2.intervalMs = 300)
    ∧ (∀ jb ∈ gifJobs r0 r1, ∀ f, jb.2.title f = "Slice " ++ toString f) := by
  have hnames : (gifJobs r0 r1).map Prod.fst
      = [gifFileName 0, gifFileName 1, gifFileName 2, gifFileName 3] := rfl
  refine ⟨rfl, by rw [hnames]; decide, rfl, ?_, ?_⟩
  · intro jb hjb
    simp only [gifJobs, List.enum, List.map, List.mem_cons,
      List.not_mem_nil, or_false] at hjb
    rcases hjb with rfl | rfl | rfl | rfl <;> rfl
  · intro jb hjb f
    simp only [gifJobs, List.enum, List.map, List.mem_cons,
      List.not_mem_nil, or_false] at hjb
    rcases hjb with rfl | rfl | rfl | rfl <;> rfl

/-- C9: with the network constructed with `out_channels=1`, every batch's
logits have exactly one channel, the sigmoid-threshold branch of the
evaluation step is always the one taken (the softmax/argmax branch is
unreachable), and every stored prediction tensor is binary — each voxel
value is 0 or 1. -/
theorem binary_branch_always_taken (m : UNetModel)
    (batches : List (Vol ℚ × Vol ℚ)) (b : Vol ℚ × Vol ℚ) (c : Coord)
    (h : m.outChannels = 1) :
    (m.fwd b.1).channels = 1
    ∧ (evaluation_step m b).1.data c
        = (if (0.5 : ℝ) < sigmoid ((m.fwd b.1).val 0 c) then 1 else 0)
    ∧ ((evaluation_step m b).1.data c = 0 ∨ (evaluation_step m b).1.data c = 1)
    ∧ (∀ r ∈ (runLoop m batches).stored, ∀ c2,
        r.1.data c2 = 0 ∨ r.1.data c2 = 1) := by
  have hch : ∀ x, (m.fwd x).channels = 1 := fun x => (m.fwd_channels x).trans h
  have hstep : ∀ bb : Vol ℚ × Vol ℚ, ∀ c2 : Coord,
      (evaluation_step m bb).1.data c2
        = (if (0.5 : ℝ) < sigmoid ((m.fwd bb.1).val 0 c2) then 1 else 0) := by
    intro bb c2
    simp [evaluation_step, hch bb.1]
  have hbin : ∀ bb : Vol ℚ × Vol ℚ, ∀ c2 : Coord,
      (evaluation_step m bb).1.data c2 = 0
      ∨ (evaluation_step m bb).1.data c2 = 1 := by
    intro bb c2
    rw [hstep bb c2]
    by_cases hc : (0.5 : ℝ) < sigmoid ((m.fwd bb.1).val 0 c2)
    · right; rw [if_pos hc]
    · left; rw [if_neg hc]
  refine ⟨hch b.1, hstep b c, hbin b c, ?_⟩
  intro r hr c2
  rw [runLoop_stored_eq] at hr
  obtain ⟨bb, _, rfl⟩ := List.mem_map.mp hr
  exact hbin bb c2

/-- Witness for C9 at the trivial single-output-channel model on the marker
batch. -/
theorem binary_branch_always_taken_witness :
    constModel.outChannels = 1
    ∧ ((constModel.fwd batchMarker.1).channels = 1
      ∧ (evaluation_step constModel batchMarker).1.data (coordOf 0 0 0)
          = (if (0.5 : ℝ) < sigmoid ((constModel.fwd batchMarker.1).val 0 (coordOf 0 0 0))
              then 1 else 0)
      ∧ ((evaluation_step constModel batchMarker).1.data (coordOf 0 0 0) = 0
        ∨ (evaluation_step constModel batchMarker).1.data (coordOf 0 0 0) = 1)
      ∧ (∀ r ∈ (runLoop constModel [batchMarker]).stored, ∀ c2,
          r.1.data c2 = 0 ∨ r.1.data c2 = 1)) :=
  ⟨rfl, binary_branch_always_taken constModel [batchMarker] batchMarker
    (coordOf 0 0 0) rfl⟩

end UNETScript
